import Mathlib

/-!
Shallow embedding of the aggregation pipeline of `dashboard.py`
(E-commerce analytics dashboard).

The pipeline validates a raw tabular dataset, coerces the timestamp and
numeric columns, drops rows whose timestamp is unparseable, applies a
year/category filter, and computes the derived views consumed by the
charts: scalar metrics, the monthly aggregate, the Pareto category
ranking with cumulative percentages, the top-80% category set, and the
month x payment-method normalized distribution.

Item values and review scores are modelled as `Option ℚ` (exact
arithmetic standing for pandas floats, `none` standing for NaN); pandas
null-skipping aggregation is modelled by `List.filterMap`.  pandas
`groupby` sorts its keys in ascending order and drops null keys; both
behaviours are reproduced below with `List.dedup` + `List.insertionSort`.
-/

namespace Dashboard

/-- A parsed purchase timestamp.  The pipeline only ever reads the
calendar fields `year` and `month` (via `.dt.year`, `.dt.month` and
`.dt.to_period('M')`), but the day is carried along faithfully. -/
structure Timestamp where
  year : Int
  month : Nat
  day : Nat
deriving DecidableEq, Repr

/-- One raw CSV record (all cells are strings as read from the file; a
missing category cell is `none`, pandas NaN). -/
structure RawRow where
  order_purchase_timestamp : String
  product_category_name_english : Option String
  order_id : String
  total_item_value : String
  review_score : String
  payment_type : String
deriving DecidableEq, Repr

/-- A raw tabular dataset: its column names (`df.columns`) and its
records. -/
structure RawFrame where
  columns : List String
  rows : List RawRow
deriving DecidableEq, Repr

/-- One record after `_validate_and_prepare`: the timestamp parsed
successfully (rows with unparseable timestamps were dropped), the
numeric fields are `none` when their token was unparseable (pandas
`errors='coerce'`). -/
structure CleanRow where
  ts : Timestamp
  category : Option String
  order_id : String
  value : Option ℚ
  score : Option ℚ
  payment : String
deriving DecidableEq, Repr

/-- `df['year']` derived from the timestamp. -/
def CleanRow.year (r : CleanRow) : Int := r.ts.year

/-- `df['month']` derived from the timestamp. -/
def CleanRow.month (r : CleanRow) : Nat := r.ts.month

/-- `df['order_month_year']`: `.dt.to_period('M')`, i.e. the calendar
(year, month) pair. -/
def CleanRow.monthPeriod (r : CleanRow) : Int × Nat := (r.ts.year, r.ts.month)

/-- The sidebar selection: `none` is "All Years" / "All Categories". -/
structure Selection where
  year : Option Int
  category : Option String
deriving DecidableEq, Repr

/-- The filter block of the script:
`filtered_df = df.copy()`; if a year is selected keep rows whose derived
year equals it; if a category is selected keep rows whose category
equals it (a NaN category never equals a selected category). -/
def filtered_df (sel : Selection) (df : List CleanRow) : List CleanRow :=
  let d1 := match sel.year with
    | none => df
    | some y => df.filter (fun r => r.year = y)
  match sel.category with
  | none => d1
  | some c => d1.filter (fun r => r.category = some c)

/-- `series.sum()` for the `total_item_value` column: pandas skips nulls. -/
def sumValues (df : List CleanRow) : ℚ := (df.filterMap CleanRow.value).sum

/-- `filtered_df['order_id'].nunique()`. -/
def total_orders (df : List CleanRow) : Nat := ((df.map CleanRow.order_id).dedup).length

/-- `filtered_df['total_item_value'].sum()`. -/
def total_revenue (df : List CleanRow) : ℚ := sumValues df

/-- `series.mean()`: null-skipping mean, NaN (`none`) when no non-null
entry exists. -/
def colMean (vs : List (Option ℚ)) : Option ℚ :=
  let xs := vs.filterMap id
  if xs.isEmpty then none else some (xs.sum / (xs.length : ℚ))

/-- `filtered_df['total_item_value'].mean()`. -/
def avg_order_value (df : List CleanRow) : Option ℚ := colMean (df.map CleanRow.value)

/-- `filtered_df['review_score'].mean()`. -/
def avg_satisfaction (df : List CleanRow) : Option ℚ := colMean (df.map CleanRow.score)

/-- The groupby key of the monthly aggregation: the derived
(year, month) columns. -/
def ymKey (r : CleanRow) : Int × Nat := (r.year, r.month)

/-- Ascending (lexicographic) order on (year, month) keys, the order in
which pandas `groupby(['year','month'])` emits its groups. -/
def ymLe (a b : Int × Nat) : Prop := a.1 < b.1 ∨ (a.1 = b.1 ∧ a.2 ≤ b.2)

/-- Strict ascending order on (year, month) keys. -/
def ymLt (a b : Int × Nat) : Prop := a.1 < b.1 ∨ (a.1 = b.1 ∧ a.2 < b.2)

instance : DecidableRel ymLe := fun a b => by unfold ymLe; infer_instance

instance : IsTotal (Int × Nat) ymLe := by
  constructor
  intro a b
  rcases lt_trichotomy a.1 b.1 with h | h | h
  · exact Or.inl (Or.inl h)
  · rcases le_total a.2 b.2 with h2 | h2
    · exact Or.inl (Or.inr ⟨h, h2⟩)
    · exact Or.inr (Or.inr ⟨h.symm, h2⟩)
  · exact Or.inr (Or.inl h)

instance : IsTrans (Int × Nat) ymLe := by
  constructor
  rintro a b c (h | ⟨e, h⟩) (h' | ⟨e', h'⟩)
  · exact Or.inl (h.trans h')
  · exact Or.inl (e' ▸ h)
  · exact Or.inl (e ▸ h')
  · exact Or.inr ⟨e.trans e', h.trans h'⟩

/-- The distinct (year, month) keys of the dataset in ascending order,
as `groupby(['year','month'])` produces them. -/
def ymKeys (df : List CleanRow) : List (Int × Nat) :=
  List.insertionSort ymLe ((df.map ymKey).dedup)

/-- The monthly aggregation
`filtered_df.groupby(['year','month']).agg({'order_id': 'count',
'total_item_value': 'sum'}).reset_index()`: for each (year, month) group
in ascending key order, the count of (non-null) `order_id` entries —
i.e. the number of rows of the group — and the null-skipping sum of
`total_item_value`. -/
def monthly_sales (df : List CleanRow) : List ((Int × Nat) × Nat × ℚ) :=
  (ymKeys df).map (fun k =>
    (k, (df.filter (fun r => ymKey r = k)).length,
      sumValues (df.filter (fun r => ymKey r = k))))

/-- Alphabetically sorted distinct non-null categories: the group keys
of `groupby('product_category_name_english')` (pandas sorts its keys and
drops null keys). -/
def catKeys (df : List CleanRow) : List String :=
  List.insertionSort (fun a b : String => a ≤ b)
    ((df.filterMap CleanRow.category).dedup)

/-- `df.groupby('product_category_name_english')['total_item_value'].sum()`:
per-category null-skipping revenue, keyed in ascending category order. -/
def catRevenue (df : List CleanRow) : List (String × ℚ) :=
  (catKeys df).map (fun c =>
    (c, sumValues (df.filter (fun r => r.category = some c))))

/-- Descending order on summed revenue (`sort_values(ascending=False)`). -/
def revDesc (a b : String × ℚ) : Prop := b.2 ≤ a.2

instance : DecidableRel revDesc := fun a b => by unfold revDesc; infer_instance

instance : IsTotal (String × ℚ) revDesc := ⟨fun a b => le_total b.2 a.2⟩

instance : IsTrans (String × ℚ) revDesc :=
  ⟨fun _ _ _ hab hbc => le_trans hbc hab⟩

/-- The full category revenue ranking
`df.groupby('product_category_name_english')['total_item_value'].sum().sort_values(ascending=False)`
over the unfiltered dataset (the `top_categories` series of the script). -/
def top_categories (df : List CleanRow) : List (String × ℚ) :=
  List.insertionSort revDesc (catRevenue df)

/-- The Pareto ranking: the same series truncated with `.head(10)`. -/
def category_revenue (df : List CleanRow) : List (String × ℚ) :=
  (top_categories df).take 10

/-- `total_revenue_all = df['total_item_value'].sum()`: the Pareto
denominator, taken over the whole unfiltered dataset. -/
def total_revenue_all (df : List CleanRow) : ℚ := sumValues df

/-- `Series.cumsum()`: running cumulative sums. -/
def cumsumList : List ℚ → List ℚ
  | [] => []
  | x :: xs => x :: (cumsumList xs).map (fun s => x + s)

/-- Pareto view: `(category_revenue.cumsum() / total_revenue_all * 100)`. -/
def cumulative_pct (df : List CleanRow) : List ℚ :=
  (cumsumList ((category_revenue df).map Prod.snd)).map
    (fun s => s / total_revenue_all df * 100)

/-- `top_categories.sum()`: the denominator used by the top-80%
computation — the item-value total over the category groups (rows with a
non-null category). -/
def catTotal (df : List CleanRow) : ℚ := ((top_categories df).map Prod.snd).sum

/-- `(top_categories.cumsum() / top_categories.sum() * 100)` paired with
its category index. -/
def cum_pct_pairs (df : List CleanRow) : List (String × ℚ) :=
  ((top_categories df).map Prod.fst).zip
    ((cumsumList ((top_categories df).map Prod.snd)).map
      (fun s => s / catTotal df * 100))

/-- `top_80_categories = cumulative_pct[cumulative_pct <= 80].index.tolist()`. -/
def top_80_categories (df : List CleanRow) : List String :=
  ((cum_pct_pairs df).filter (fun p => p.2 ≤ 80)).map Prod.fst

/-- The distinct month-periods of `df['order_month_year']`, ascending:
the row index of the `pd.crosstab` payment pivot. -/
def mpKeys (df : List CleanRow) : List (Int × Nat) :=
  List.insertionSort ymLe ((df.map CleanRow.monthPeriod).dedup)

/-- The distinct payment types, ascending: the column index of the
`pd.crosstab` payment pivot. -/
def ptKeys (df : List CleanRow) : List String :=
  List.insertionSort (fun a b : String => a ≤ b)
    ((df.map CleanRow.payment).dedup)

/-- `pd.crosstab(df['order_month_year'].astype(str), df['payment_type'],
normalize='index') * 100`: for each month-period that occurs in the
dataset, the row of payment-method percentages (each cell count divided
by the month's row count, times 100). -/
def payment_pivot (df : List CleanRow) : List ((Int × Nat) × List ℚ) :=
  (mpKeys df).map (fun mp =>
    (mp, (ptKeys df).map (fun p =>
      (((df.filter (fun r => CleanRow.monthPeriod r = mp)).filter
          (fun r => r.payment = p)).length : ℚ)
        / (((df.filter (fun r => CleanRow.monthPeriod r = mp)).length : ℚ))
        * 100)))

/-- The six required columns of `_validate_and_prepare`. -/
def requiredCols : List String :=
  ["order_purchase_timestamp", "product_category_name_english", "order_id",
   "total_item_value", "review_score", "payment_type"]

/-- `missing = [c for c in required_cols if c not in df.columns]`. -/
def missingCols (f : RawFrame) : List String :=
  requiredCols.filter (fun c => decide (c ∉ f.columns))

/-- Row-wise cleaning: coerce the timestamp (`pd.to_datetime(...,
errors='coerce')`) and the two numeric columns (`pd.to_numeric(...,
errors='coerce')`, unparseable tokens become null); the row survives iff
its timestamp parsed.  The parsers are parameters of the embedding. -/
def cleanOfRaw (parseTs : String → Option Timestamp)
    (parseNum : String → Option ℚ) (raw : RawRow) : Option CleanRow :=
  (parseTs raw.order_purchase_timestamp).map (fun t =>
    ⟨t, raw.product_category_name_english, raw.order_id,
     parseNum raw.total_item_value, parseNum raw.review_score,
     raw.payment_type⟩)

/-- The cleaning body of `_validate_and_prepare` after the column check:
coerce every row, then `dropna(subset=['order_purchase_timestamp'])`. -/
def prepare (parseTs : String → Option Timestamp)
    (parseNum : String → Option ℚ) (f : RawFrame) : List CleanRow :=
  f.rows.filterMap (cleanOfRaw parseTs parseNum)

/-- `_validate_and_prepare`: if any required column is missing, report
the list of missing columns (the `st.error` message names `missing`) and
stop; otherwise clean.  The caller's frame is never modified (the
function is pure; in the source the check precedes `df.copy()`). -/
def validate_and_prepare (parseTs : String → Option Timestamp)
    (parseNum : String → Option ℚ) (f : RawFrame) :
    Except (List String) (List CleanRow) :=
  if missingCols f = [] then .ok (prepare parseTs parseNum f)
  else .error (missingCols f)

/-- Modelled from the claim's words (C7): the mean value per distinct
order — group the filtered set by order id, total each order's item
values (null-skipping) and average over the distinct orders.  Exists
only to be compared against the source's `avg_order_value`. -/
def mean_value_per_order (df : List CleanRow) : Option ℚ :=
  let os := (df.map CleanRow.order_id).dedup
  if os.isEmpty then none
  else some ((os.map (fun o =>
    sumValues (df.filter (fun r => r.order_id = o)))).sum / (os.length : ℚ))

/-- Modelled from the claim's words (C3): cumulative percentages of the
top-10 prefix relative to the item-value sum over the categories (rows
with a non-null category) instead of over the whole unfiltered dataset.
Exists only to be compared against the source's `cumulative_pct`. -/
def cumulative_pct_over_categories (df : List CleanRow) : List ℚ :=
  (cumsumList ((category_revenue df).map Prod.snd)).map
    (fun s => s / catTotal df * 100)

/-- Example (C1): two line items of one order in one month. -/
def exDataC1 : List CleanRow :=
  [⟨⟨2017, 1, 5⟩, some "toys", "order1", some 10, some 5, "credit_card"⟩,
   ⟨⟨2017, 1, 9⟩, some "toys", "order1", some 20, some 4, "credit_card"⟩]

/-- Example (C2): the three-record dataset of the specification —
(Jan 2017, toys, 10), (Jan 2017, toys, 20), (Feb 2017, books, 5). -/
def exDataSpec : List CleanRow :=
  [⟨⟨2017, 1, 15⟩, some "toys", "o1", some 10, none, "credit_card"⟩,
   ⟨⟨2017, 1, 20⟩, some "toys", "o2", some 20, none, "boleto"⟩,
   ⟨⟨2017, 2, 3⟩, some "books", "o3", some 5, none, "credit_card"⟩]

/-- Example (C3): one row with a null category next to one categorised
row. -/
def exDataC3 : List CleanRow :=
  [⟨⟨2017, 1, 1⟩, none, "o1", some 10, none, "credit_card"⟩,
   ⟨⟨2017, 1, 2⟩, some "a", "o2", some 10, none, "credit_card"⟩]

/-- Example (C4, before): revenues a = 40, b = 39, x = 21. -/
def exDataC4a : List CleanRow :=
  [⟨⟨2017, 1, 1⟩, some "a", "o1", some 40, none, "credit_card"⟩,
   ⟨⟨2017, 1, 2⟩, some "b", "o2", some 39, none, "credit_card"⟩,
   ⟨⟨2017, 1, 3⟩, some "x", "o3", some 21, none, "credit_card"⟩]

/-- Example (C4, after): the same dataset with the revenue of category
"b" — a member of the top-80% set of `exDataC4a` — raised from 39 to
10039. -/
def exDataC4b : List CleanRow :=
  [⟨⟨2017, 1, 1⟩, some "a", "o1", some 40, none, "credit_card"⟩,
   ⟨⟨2017, 1, 2⟩, some "b", "o2", some 10039, none, "credit_card"⟩,
   ⟨⟨2017, 1, 3⟩, some "x", "o3", some 21, none, "credit_card"⟩]

/-- Example (C6): two months, two payment methods. -/
def exDataC6 : List CleanRow :=
  [⟨⟨2017, 1, 1⟩, some "toys", "o1", some 10, none, "boleto"⟩,
   ⟨⟨2017, 1, 2⟩, some "toys", "o2", some 20, none, "credit_card"⟩,
   ⟨⟨2017, 1, 3⟩, some "toys", "o3", some 30, none, "credit_card"⟩,
   ⟨⟨2017, 2, 4⟩, some "books", "o4", some 5, none, "credit_card"⟩]

/-- Example (C7): two line items of one order with values 10 and 30. -/
def exDataC7 : List CleanRow :=
  [⟨⟨2017, 1, 1⟩, some "toys", "o1", some 10, none, "credit_card"⟩,
   ⟨⟨2017, 1, 2⟩, some "toys", "o1", some 30, none, "credit_card"⟩]

/-- Example raw frame (C8): all six columns present; one row has an
unparseable timestamp, one row an unparseable value. -/
def exFrameC8 : RawFrame :=
  ⟨["order_purchase_timestamp", "product_category_name_english", "order_id",
    "total_item_value", "review_score", "payment_type"],
   [⟨"2017-01-05", some "toys", "o1", "10", "5", "credit_card"⟩,
    ⟨"not-a-date", some "toys", "o2", "20", "4", "credit_card"⟩,
    ⟨"2017-02-07", some "books", "o3", "oops", "3", "boleto"⟩]⟩

/-- Example parser (C8/C9 witnesses): recognises the two timestamp
tokens used by `exFrameC8`. -/
def exParseTs (s : String) : Option Timestamp :=
  if s = "2017-01-05" then some ⟨2017, 1, 5⟩
  else if s = "2017-02-07" then some ⟨2017, 2, 7⟩
  else none

/-- Example numeric parser (C8/C9 witnesses). -/
def exParseNum (s : String) : Option ℚ :=
  if s = "10" then some 10
  else if s = "20" then some 20
  else if s = "5" then some 5
  else if s = "4" then some 4
  else if s = "3" then some 3
  else none

/-- Example raw frame (C9): only the payment-method column is missing. -/
def exFrameC9 : RawFrame :=
  ⟨["order_purchase_timestamp", "product_category_name_english", "order_id",
    "total_item_value", "review_score"], []⟩

theorem ymLt_of_ymLe_of_ne {a b : Int × Nat} (h : ymLe a b) (hne : a ≠ b) :
    ymLt a b := by
  rcases h with h | ⟨e, h⟩
  · exact Or.inl h
  · refine Or.inr ⟨e, lt_of_le_of_ne h fun e2 => hne ?_⟩
    exact Prod.ext e e2

theorem mem_ymKeys {df : List CleanRow} {k : Int × Nat} :
    k ∈ ymKeys df ↔ ∃ r ∈ df, ymKey r = k := by
  simp [ymKeys, List.mem_dedup]

theorem ymKeys_nodup (df : List CleanRow) : (ymKeys df).Nodup :=
  ((List.perm_insertionSort ymLe _).nodup_iff).mpr (List.nodup_dedup _)

theorem ymKeys_sorted (df : List CleanRow) : List.Sorted ymLe (ymKeys df) :=
  List.sorted_insertionSort ymLe _

/-- Summing an indicator over a duplicate-free key list. -/
theorem sum_if_indicator {κ : Type} [DecidableEq κ] (c : ℚ) :
    ∀ (K : List κ) (x : κ), K.Nodup → x ∈ K →
      (K.map (fun k => if x = k then c else 0)).sum = c
  | [], x, _, hx => absurd hx (List.not_mem_nil x)
  | k0 :: K, x, hK, hx => by
    rcases List.mem_cons.mp hx with h | h
    · subst h
      simp only [List.map_cons, List.sum_cons, if_pos rfl]
      have hz : ((K.map fun k => if x = k then c else 0)).sum = 0 := by
        apply List.sum_eq_zero
        intro y hy
        rcases List.mem_map.mp hy with ⟨k, hk, rfl⟩
        have hne : x ≠ k := fun e => (List.nodup_cons.mp hK).1 (e ▸ hk)
        simp [hne]
      rw [hz, add_zero]
      simp
    · have hne : x ≠ k0 := fun e => (List.nodup_cons.mp hK).1 (e ▸ h)
      simp only [List.map_cons, List.sum_cons, if_neg hne]
      rw [sum_if_indicator c K x (List.nodup_cons.mp hK).2 h, zero_add]

/-- Splitting a weighted sum along the groups of a duplicate-free,
covering key list: the group-by/aggregate partition law. -/
theorem sum_partition {α κ : Type} [DecidableEq κ] (key : α → κ) (ρ : α → ℚ) :
    ∀ (l : List α) (K : List κ), K.Nodup → (∀ a ∈ l, key a ∈ K) →
      (K.map (fun k => ((l.filter (fun a => key a = k)).map ρ).sum)).sum
        = (l.map ρ).sum
  | [], K, _, _ => by simp
  | a :: t, K, hK, hcov => by
    have ht := sum_partition key ρ t K hK
      (fun x hx => hcov x (List.mem_cons_of_mem _ hx))
    have h1 : ∀ k : κ, (((a :: t).filter (fun x => key x = k)).map ρ).sum
        = (if key a = k then ρ a else 0)
          + ((t.filter (fun x => key x = k)).map ρ).sum := by
      intro k
      by_cases h : key a = k <;> simp [List.filter_cons, h]
    calc (K.map fun k => (((a :: t).filter (fun x => key x = k)).map ρ).sum).sum
        = (K.map fun k => (if key a = k then ρ a else 0)
            + ((t.filter (fun x => key x = k)).map ρ).sum).sum := by
          exact congrArg List.sum (List.map_congr_left fun k _ => h1 k)
      _ = (K.map fun k => if key a = k then ρ a else 0).sum
            + (K.map fun k => ((t.filter (fun x => key x = k)).map ρ).sum).sum := by
          rw [← List.sum_map_add]
      _ = ρ a + (t.map ρ).sum := by
          rw [sum_if_indicator (ρ a) K (key a) hK (hcov a (List.mem_cons_self a t)), ht]
      _ = ((a :: t).map ρ).sum := by simp

/-- Null-skipping sums can be computed row-wise with `none ↦ 0`. -/
theorem sumValues_eq_map_sum :
    ∀ l : List CleanRow, sumValues l = (l.map (fun r => (r.value).getD 0)).sum
  | [] => rfl
  | r :: t => by
    have ih := sumValues_eq_map_sum t
    rw [sumValues] at ih
    cases h : r.value <;> simp [sumValues, List.filterMap_cons, h, ih]

/-- C5: the sum over all (year, month) groups of the monthly item-value
sums equals the total item-value sum of the filtered dataset, exactly
(ℚ arithmetic), with null item values skipped on both sides. -/
theorem monthly_sum_conservation (sel : Selection) (base : List CleanRow) :
    ((monthly_sales (filtered_df sel base)).map (fun e => e.2.2)).sum
      = total_revenue (filtered_df sel base) := by
  generalize filtered_df sel base = df
  have hmap : (monthly_sales df).map (fun e => e.2.2)
      = (ymKeys df).map
          (fun k => ((df.filter (fun r => ymKey r = k)).map
            (fun r => (r.value).getD 0)).sum) := by
    simp only [monthly_sales, List.map_map]
    exact List.map_congr_left fun k _ => sumValues_eq_map_sum _
  rw [hmap, sum_partition ymKey (fun r => (r.value).getD 0) df (ymKeys df)
    (ymKeys_nodup df) (fun r hr => mem_ymKeys.mpr ⟨r, hr, rfl⟩)]
  rw [total_revenue, sumValues_eq_map_sum]

/-- C1 (amended): the monthly aggregate of the filtered dataset, keyed
by (year, month) in strictly ascending order, holds for each group the
count of rows (line items with a non-null order identifier — the code
aggregates `order_id` with `'count'`, not `'nunique'`) and the
null-skipping sum of item values. -/
theorem monthly_sales_spec (df : List CleanRow) :
    List.Pairwise ymLt ((monthly_sales df).map Prod.fst) ∧
    ∀ (k : Int × Nat) (c : Nat) (s : ℚ),
      (k, c, s) ∈ monthly_sales df ↔
        (∃ r ∈ df, ymKey r = k) ∧
        c = (df.filter (fun r => ymKey r = k)).length ∧
        s = sumValues (df.filter (fun r => ymKey r = k)) := by
  constructor
  · have h1 : (monthly_sales df).map Prod.fst = ymKeys df := by
      simp [monthly_sales, List.map_map, Function.comp_def]
    rw [h1]
    exact ((ymKeys_sorted df).and (ymKeys_nodup df)).imp
      (fun h => ymLt_of_ymLe_of_ne h.1 h.2)
  · intro k c s
    constructor
    · intro hmem
      rw [monthly_sales] at hmem
      rcases List.mem_map.mp hmem with ⟨k', hk', he⟩
      cases he
      exact ⟨mem_ymKeys.mp hk', rfl, rfl⟩
    · rintro ⟨hex, rfl, rfl⟩
      rw [monthly_sales]
      exact List.mem_map.mpr ⟨k, mem_ymKeys.mpr hex, rfl⟩

/-- C1 counterexample: on a month holding two line items of one order,
the monthly aggregate reports 2 (the row count), while the count of
distinct order identifiers of that month is 1: the aggregate does not
hold distinct-order counts. -/
theorem monthly_sales_count_not_distinct :
    monthly_sales exDataC1 = [((2017, 1), 2, 30)] ∧
    total_orders exDataC1 = 1 ∧ (2 : Nat) ≠ 1 := by
  refine ⟨?_, by decide, by decide⟩
  norm_num [monthly_sales, ymKeys, exDataC1, ymKey, CleanRow.year,
    CleanRow.month, List.insertionSort, List.orderedInsert,
    List.dedup_cons_of_mem, List.dedup_cons_of_not_mem, List.filter_cons,
    sumValues, List.filterMap]

theorem cumsumList_length : ∀ l : List ℚ, (cumsumList l).length = l.length
  | [] => rfl
  | x :: xs => by simp [cumsumList, cumsumList_length xs]

theorem cumsumList_getElem :
    ∀ (l : List ℚ) (i : Nat), i < (cumsumList l).length →
      ∀ h : i < (cumsumList l).length, (cumsumList l).get ⟨i, h⟩ = (l.take (i + 1)).sum
  | [], i, h, _ => by simp [cumsumList] at h
  | x :: xs, 0, _, h => by simp [cumsumList]
  | x :: xs, i + 1, hlt, h => by
    have h' : i < (cumsumList xs).length := by
      have := hlt
      simp only [cumsumList, List.length_cons, List.length_map,
        Nat.succ_lt_succ_iff] at this
      simpa [cumsumList_length]
    have ih := cumsumList_getElem xs i h' h'
    rw [List.get_eq_getElem] at ih
    simp only [cumsumList, List.get_eq_getElem, List.getElem_cons_succ,
      List.getElem_map, List.take_succ_cons, List.sum_cons]
    rw [ih]

theorem cum_pct_pairs_length (df : List CleanRow) :
    (cum_pct_pairs df).length = (top_categories df).length := by
  simp [cum_pct_pairs, cumsumList_length]

theorem cum_pct_pairs_get (df : List CleanRow) (i : Nat)
    (h : i < (top_categories df).length) (hp : i < (cum_pct_pairs df).length) :
    (cum_pct_pairs df).get ⟨i, hp⟩
      = (((top_categories df).get ⟨i, h⟩).1,
         (((top_categories df).map Prod.snd).take (i + 1)).sum
           / catTotal df * 100) := by
  have hcs : i < (cumsumList ((top_categories df).map Prod.snd)).length := by
    rw [cumsumList_length]; simpa using h
  have hcs2 := cumsumList_getElem ((top_categories df).map Prod.snd) i hcs hcs
  rw [List.get_eq_getElem] at hcs2
  simp only [cum_pct_pairs, List.get_eq_getElem, List.getElem_zip,
    List.getElem_map, hcs2]

/-- C2: the top-80% set contains exactly the categories of the full
descending revenue ranking whose cumulative revenue percentage at their
position is ≤ 80% (so the first category that crosses 80% is excluded);
on the specification's own three-record example, where the leading
category alone holds ~85.7% of revenue, the set is empty. -/
theorem top_80_categories_spec :
    (∀ (df : List CleanRow) (c : String),
      c ∈ top_80_categories df ↔
        ∃ i, ∃ h : i < (top_categories df).length,
          ((top_categories df).get ⟨i, h⟩).1 = c ∧
          (((top_categories df).map Prod.snd).take (i + 1)).sum
            / catTotal df * 100 ≤ 80) ∧
    top_80_categories exDataSpec = [] := by
  constructor
  · intro df c
    rw [top_80_categories]
    simp only [List.mem_map, List.mem_filter, decide_eq_true_eq]
    constructor
    · rintro ⟨p, ⟨hp, hle⟩, rfl⟩
      rcases List.mem_iff_get.mp hp with ⟨⟨i, hi⟩, rfl⟩
      have h : i < (top_categories df).length := by
        have h2 := hi
        rwa [cum_pct_pairs_length] at h2
      rw [cum_pct_pairs_get df i h hi] at hle ⊢
      exact ⟨i, h, rfl, hle⟩
    · rintro ⟨i, h, hc, hle⟩
      have hp : i < (cum_pct_pairs df).length := by
        rw [cum_pct_pairs_length]; exact h
      refine ⟨(cum_pct_pairs df).get ⟨i, hp⟩, ⟨List.get_mem _ _ _, ?_⟩, ?_⟩
      · rw [cum_pct_pairs_get df i h hp]
        exact hle
      · rw [cum_pct_pairs_get df i h hp]
        exact hc
  · norm_num [top_80_categories, cum_pct_pairs, top_categories, catRevenue,
      catKeys, catTotal, cumsumList, sumValues, revDesc, exDataSpec,
      List.insertionSort, List.orderedInsert, List.dedup_cons_of_mem,
      List.dedup_cons_of_not_mem, List.filter_cons, List.filterMap,
      List.zip_cons_cons]

/-- C3 (amended): the Pareto ranking is computed over the unfiltered
dataset — the full ranking is a descending-sorted permutation of the
per-category revenues and the view is its first 10 entries — and each
prefix's cumulative percentage is taken relative to the item-value sum
of the entire unfiltered dataset (`df['total_item_value'].sum()`,
which also counts rows with a null category), not just the top 10. -/
theorem pareto_cumulative_pct_spec (df : List CleanRow) :
    List.Sorted revDesc (top_categories df) ∧
    (top_categories df).Perm (catRevenue df) ∧
    category_revenue df = (top_categories df).take 10 ∧
    ∀ i : Fin (cumulative_pct df).length,
      (cumulative_pct df).get i
        = (((category_revenue df).map Prod.snd).take (i.1 + 1)).sum
          / total_revenue_all df * 100 := by
  refine ⟨List.sorted_insertionSort revDesc _,
    List.perm_insertionSort revDesc _, rfl, ?_⟩
  rintro ⟨i, h⟩
  have hcs : i < (cumsumList ((category_revenue df).map Prod.snd)).length := by
    have h2 := h
    simpa [cumulative_pct, cumsumList_length] using h2
  have hcs2 := cumsumList_getElem ((category_revenue df).map Prod.snd) i hcs hcs
  rw [List.get_eq_getElem] at hcs2
  simp only [cumulative_pct, List.get_eq_getElem, List.getElem_map, hcs2]

/-- C3 counterexample: on a dataset holding a null-category row of value
10 beside a category "a" row of value 10, the code's Pareto percentage
for "a" is 50 (denominator: the whole-dataset sum 20), while the
claim's "sum over all categories" denominator (10) would give 100. -/
theorem cumulative_pct_denominator_counterexample :
    cumulative_pct exDataC3 = [50] ∧
    cumulative_pct_over_categories exDataC3 = [100] ∧
    total_revenue_all exDataC3 = 20 ∧
    catTotal exDataC3 = 10 ∧
    ((50 : ℚ)) ≠ 100 := by
  refine ⟨?_, ?_, ?_, ?_, by norm_num⟩ <;>
    norm_num [cumulative_pct, cumulative_pct_over_categories,
      category_revenue, top_categories, catRevenue, catKeys, catTotal,
      total_revenue_all, cumsumList, sumValues, exDataC3, revDesc,
      List.insertionSort, List.orderedInsert, List.dedup_cons_of_mem,
      List.dedup_cons_of_not_mem, List.filter_cons, List.filterMap]

theorem cumsumList_nonneg :
    ∀ l : List ℚ, (∀ x ∈ l, 0 ≤ x) → ∀ y ∈ cumsumList l, 0 ≤ y
  | [], _, y, hy => by simp [cumsumList] at hy
  | x :: xs, hl, y, hy => by
    have hx : (0:ℚ) ≤ x := hl x (List.mem_cons_self x xs)
    have hxs : ∀ z ∈ xs, (0:ℚ) ≤ z :=
      fun z hz => hl z (List.mem_cons_of_mem _ hz)
    have hy2 : y = x ∨ ∃ s ∈ cumsumList xs, x + s = y := by
      simpa [cumsumList] using hy
    rcases hy2 with h | ⟨s, hs, rfl⟩
    · exact h ▸ hx
    · have := cumsumList_nonneg xs hxs s hs
      linarith

theorem cumsumList_pairwise_le :
    ∀ l : List ℚ, (∀ x ∈ l, 0 ≤ x) → (cumsumList l).Pairwise (· ≤ ·)
  | [], _ => by simp [cumsumList]
  | x :: xs, hl => by
    have hxs : ∀ z ∈ xs, (0:ℚ) ≤ z :=
      fun z hz => hl z (List.mem_cons_of_mem _ hz)
    have hrec := cumsumList_pairwise_le xs hxs
    show ((x :: (cumsumList xs).map (fun s => x + s))).Pairwise (· ≤ ·)
    refine List.Pairwise.cons ?_ ?_
    · intro y hy
      rcases List.mem_map.mp hy with ⟨s, hs, rfl⟩
      have := cumsumList_nonneg xs hxs s hs
      linarith
    · exact hrec.map _ (fun a b hab => by linarith)

/-- A filter whose predicate is downward closed along the list keeps a
prefix of the list. -/
theorem filter_isPrefix_of_pairwise {α : Type} (p : α → Bool) :
    ∀ l : List α, l.Pairwise (fun x y => p y = true → p x = true) →
      (l.filter p).IsPrefix l
  | [], _ => by simp
  | a :: t, hp => by
    rcases List.pairwise_cons.mp hp with ⟨ha, ht⟩
    by_cases h : p a = true
    · rw [List.filter_cons_of_pos h]
      obtain ⟨r, hr⟩ := filter_isPrefix_of_pairwise p t ht
      exact ⟨r, by rw [List.cons_append, hr]⟩
    · rw [List.filter_cons_of_neg h]
      have hnil : t.filter p = [] :=
        List.filter_eq_nil_iff.mpr (fun b hb hpb => h (ha b hb hpb))
      rw [hnil]
      exact ⟨a :: t, rfl⟩

/-- Positional pairwise relations transfer from a list to its zip with
another list. -/
theorem pairwise_zip_right {α β : Type} {R : β → β → Prop} :
    ∀ (xs : List α) (ys : List β), ys.Pairwise R →
      (xs.zip ys).Pairwise (fun p q => R p.2 q.2)
  | [], _, _ => by simp
  | _ :: _, [], _ => by simp
  | x :: xs, y :: ys, hp => by
    rcases List.pairwise_cons.mp hp with ⟨hy, hys⟩
    rw [List.zip_cons_cons]
    refine List.Pairwise.cons ?_ (pairwise_zip_right xs ys hys)
    intro q hq
    exact hy q.2 (List.of_mem_zip hq).2

theorem sumValues_nonneg (l : List CleanRow)
    (h : ∀ r ∈ l, ∀ v, r.value = some v → 0 ≤ v) : 0 ≤ sumValues l := by
  apply List.sum_nonneg
  intro x hx
  rcases List.mem_filterMap.mp hx with ⟨r, hr, he⟩
  exact h r hr x he

/-- C4 (amended): with non-negative item values, the top-80% category
set is a prefix of the category column of the full descending revenue
ranking.  (The monotonicity half of the original claim is refuted by
`top_80_not_monotonic`.) -/
theorem top_80_categories_isPrefix (df : List CleanRow)
    (hv : ∀ r ∈ df, ∀ v, r.value = some v → 0 ≤ v) :
    (top_80_categories df).IsPrefix ((top_categories df).map Prod.fst) := by
  have hrev : ∀ q ∈ (top_categories df).map Prod.snd, (0:ℚ) ≤ q := by
    intro q hq
    rcases List.mem_map.mp hq with ⟨pr, hpr, rfl⟩
    have hpr2 : pr ∈ catRevenue df := by
      rw [top_categories] at hpr
      exact (List.mem_insertionSort revDesc).mp hpr
    rcases List.mem_map.mp hpr2 with ⟨c, _, rfl⟩
    refine sumValues_nonneg _ ?_
    intro r hr v hv2
    exact hv r (List.mem_of_mem_filter hr) v hv2
  have hct : (0:ℚ) ≤ catTotal df := List.sum_nonneg hrev
  have hcums := cumsumList_pairwise_le ((top_categories df).map Prod.snd) hrev
  have hpcts :
      ((cumsumList ((top_categories df).map Prod.snd)).map
        (fun s => s / catTotal df * 100)).Pairwise (· ≤ ·) := by
    refine hcums.map _ (fun a b hab => ?_)
    have h1 : a / catTotal df ≤ b / catTotal df := by
      rw [div_eq_mul_inv, div_eq_mul_inv]
      exact mul_le_mul_of_nonneg_right hab (inv_nonneg.mpr hct)
    exact mul_le_mul_of_nonneg_right h1 (by norm_num)
  have hzip := pairwise_zip_right ((top_categories df).map Prod.fst) _ hpcts
  have hdc : (cum_pct_pairs df).Pairwise
      (fun x y => (decide (x.2 ≤ (80:ℚ)) = true → decide (x.2 ≤ (80:ℚ)) = true)) := by
    exact List.Pairwise.imp (fun _ => id) hzip
  have hdc2 : (cum_pct_pairs df).Pairwise
      (fun x y => decide (y.2 ≤ (80:ℚ)) = true → decide (x.2 ≤ (80:ℚ)) = true) := by
    refine List.Pairwise.imp ?_ hzip
    intro x y hxy h80
    rw [decide_eq_true_eq] at h80 ⊢
    exact le_trans hxy h80
  have hpre := filter_isPrefix_of_pairwise (fun p => decide (p.2 ≤ (80:ℚ)))
    (cum_pct_pairs df) hdc2
  have hfst : (cum_pct_pairs df).map Prod.fst = (top_categories df).map Prod.fst := by
    rw [cum_pct_pairs]
    apply List.map_fst_zip
    simp [cumsumList_length]
  calc top_80_categories df = ((cum_pct_pairs df).filter
        (fun p => decide (p.2 ≤ (80:ℚ)))).map Prod.fst := rfl
    _ <+: (cum_pct_pairs df).map Prod.fst := hpre.map Prod.fst
    _ = (top_categories df).map Prod.fst := hfst

/-- C4 counterexample: raising the revenue of category "b" — a member of
the top-80% set {a, b} of the base dataset — from 39 to 10039 empties
the recomputed set, removing the higher-ranked, previously included
category "a": the top-80% set is not monotonic under revenue
increases. -/
theorem top_80_not_monotonic :
    catRevenue exDataC4a = [("a", 40), ("b", 39), ("x", 21)] ∧
    catRevenue exDataC4b = [("a", 40), ("b", 10039), ("x", 21)] ∧
    top_80_categories exDataC4a = ["a", "b"] ∧
    "b" ∈ top_80_categories exDataC4a ∧
    top_80_categories exDataC4b = [] ∧
    "a" ∉ top_80_categories exDataC4b := by
  have hab : (['a'] : List Char) ≤ ['b'] := by decide
  have hax : (['a'] : List Char) ≤ ['x'] := by decide
  have hbx : (['b'] : List Char) ≤ ['x'] := by decide
  have e1 : catRevenue exDataC4a = [("a", 40), ("b", 39), ("x", 21)] := by
    norm_num [catRevenue, catKeys, sumValues, exDataC4a, hab, hax, hbx,
      List.insertionSort, List.orderedInsert, List.dedup_cons_of_mem,
      List.dedup_cons_of_not_mem, List.filter_cons, List.filterMap]
  have e2 : catRevenue exDataC4b = [("a", 40), ("b", 10039), ("x", 21)] := by
    norm_num [catRevenue, catKeys, sumValues, exDataC4b, hab, hax, hbx,
      List.insertionSort, List.orderedInsert, List.dedup_cons_of_mem,
      List.dedup_cons_of_not_mem, List.filter_cons, List.filterMap]
  have e3 : top_80_categories exDataC4a = ["a", "b"] := by
    norm_num [top_80_categories, cum_pct_pairs, top_categories, e1, catTotal,
      cumsumList, revDesc, List.insertionSort, List.orderedInsert,
      List.filter_cons, List.zip_cons_cons]
  have e4 : top_80_categories exDataC4b = [] := by
    norm_num [top_80_categories, cum_pct_pairs, top_categories, e2, catTotal,
      cumsumList, revDesc, List.insertionSort, List.orderedInsert,
      List.filter_cons, List.zip_cons_cons]
  refine ⟨e1, e2, e3, ?_, e4, ?_⟩
  · rw [e3]; simp
  · rw [e4]; simp

/-- C4 witness: the non-negativity hypothesis of
`top_80_categories_isPrefix` holds on `exDataC4a`, whose top-80% set is
a prefix of its ranking's category column. -/
theorem top_80_categories_isPrefix_witness :
    (∀ r ∈ exDataC4a, ∀ v, r.value = some v → 0 ≤ v) ∧
    (top_80_categories exDataC4a).IsPrefix
      ((top_categories exDataC4a).map Prod.fst) := by
  have hv : ∀ r ∈ exDataC4a, ∀ v, r.value = some v → 0 ≤ v := by
    intro r hr v he
    simp only [exDataC4a, List.mem_cons, List.not_mem_nil, or_false] at hr
    rcases hr with rfl | rfl | rfl <;> (cases he; norm_num)
  exact ⟨hv, top_80_categories_isPrefix exDataC4a hv⟩

theorem mem_mpKeys {df : List CleanRow} {mp : Int × Nat} :
    mp ∈ mpKeys df ↔ ∃ r ∈ df, CleanRow.monthPeriod r = mp := by
  simp [mpKeys, List.mem_dedup]

theorem ptKeys_nodup (df : List CleanRow) : (ptKeys df).Nodup :=
  ((List.perm_insertionSort _ _).nodup_iff).mpr (List.nodup_dedup _)

theorem mem_ptKeys {df : List CleanRow} {p : String} :
    p ∈ ptKeys df ↔ ∃ r ∈ df, r.payment = p := by
  simp [ptKeys, List.mem_dedup]

theorem sum_map_one {α : Type} :
    ∀ l : List α, (l.map (fun _ => (1:ℚ))).sum = (l.length : ℚ)
  | [] => by simp
  | a :: t => by simp [sum_map_one t, add_comm]

theorem pivot_row_sum_aux (df : List CleanRow) (mp : Int × Nat)
    (hmp : mp ∈ mpKeys df) :
    ((ptKeys df).map (fun p =>
      (((df.filter (fun r => CleanRow.monthPeriod r = mp)).filter
          (fun r => r.payment = p)).length : ℚ)
        / (((df.filter (fun r => CleanRow.monthPeriod r = mp)).length : ℚ))
        * 100)).sum = 100 := by
  rcases mem_mpKeys.mp hmp with ⟨r0, hr0, hr0k⟩
  set g := df.filter (fun r => CleanRow.monthPeriod r = mp) with hg
  have hr0g : r0 ∈ g := by
    rw [hg]
    exact List.mem_filter.mpr ⟨hr0, by simp [hr0k]⟩
  have hN : (0:ℚ) < (g.length : ℚ) := by
    have h0 : 0 < g.length := List.length_pos.mpr (List.ne_nil_of_mem hr0g)
    exact_mod_cast h0
  have hcov : ∀ r ∈ g, CleanRow.payment r ∈ ptKeys df := by
    intro r hr
    exact mem_ptKeys.mpr ⟨r, List.mem_of_mem_filter hr, rfl⟩
  have hpart := sum_partition CleanRow.payment (fun _ => (1:ℚ)) g
    (ptKeys df) (ptKeys_nodup df) hcov
  have hcnt : ((ptKeys df).map
      (fun p => ((g.filter (fun r => r.payment = p)).length : ℚ))).sum
        = (g.length : ℚ) := by
    calc ((ptKeys df).map
          (fun p => ((g.filter (fun r => r.payment = p)).length : ℚ))).sum
        = ((ptKeys df).map (fun p =>
            ((g.filter (fun r => CleanRow.payment r = p)).map
              (fun _ => (1:ℚ))).sum)).sum := by
          refine congrArg List.sum (List.map_congr_left fun p _ => ?_)
          rw [sum_map_one]
      _ = (g.map (fun _ => (1:ℚ))).sum := hpart
      _ = (g.length : ℚ) := sum_map_one g
  calc ((ptKeys df).map (fun p =>
          ((g.filter (fun r => r.payment = p)).length : ℚ)
            / (g.length : ℚ) * 100)).sum
      = ((ptKeys df).map (fun p =>
          ((g.filter (fun r => r.payment = p)).length : ℚ)
            * (100 / (g.length : ℚ)))).sum := by
        refine congrArg List.sum (List.map_congr_left fun p _ => ?_)
        field_simp
    _ = ((ptKeys df).map (fun p =>
          ((g.filter (fun r => r.payment = p)).length : ℚ))).sum
            * (100 / (g.length : ℚ)) := by
        rw [← List.sum_map_mul_right]
    _ = (g.length : ℚ) * (100 / (g.length : ℚ)) := by rw [hcnt]
    _ = 100 := by field_simp

/-- C6: in the payment-method time distribution, the percentage row of
every month-period present in the pivot sums to exactly 100
(row-stochastic), and a month-period is present iff the dataset holds at
least one record of it (empty months are absent, not NaN/0 rows). -/
theorem payment_pivot_row_sum :
    (∀ (df : List CleanRow) (mp : Int × Nat) (row : List ℚ),
      (mp, row) ∈ payment_pivot df → row.sum = 100) ∧
    (∀ (df : List CleanRow) (mp : Int × Nat),
      mp ∈ (payment_pivot df).map Prod.fst ↔
        ∃ r ∈ df, CleanRow.monthPeriod r = mp) := by
  constructor
  · intro df mp row hmem
    rw [payment_pivot] at hmem
    rcases List.mem_map.mp hmem with ⟨mp', hmp', he⟩
    injection he with h1 h2
    subst h1
    subst h2
    exact pivot_row_sum_aux df mp' hmp'
  · intro df mp
    have h1 : (payment_pivot df).map Prod.fst = mpKeys df := by
      simp [payment_pivot, List.map_map, Function.comp_def]
    rw [h1, mem_mpKeys]

/-- C6 witness: on a concrete four-record dataset, the February 2017 row
of the pivot is present and sums to 100. -/
theorem payment_pivot_row_sum_witness :
    ((((2017 : Int), (2 : Nat)), ([0, 100] : List ℚ)) ∈ payment_pivot exDataC6) ∧
    ([(0 : ℚ), 100]).sum = 100 := by
  have hbc : (['b','o','l','e','t','o'] : List Char)
      ≤ ['c','r','e','d','i','t','_','c','a','r','d'] := by decide
  have hne1 : ("credit_card" : String) ≠ "boleto" := by decide
  have hne2 : ("boleto" : String) ≠ "credit_card" := by decide
  have hpp : payment_pivot exDataC6
      = [((2017, 1), [100/3, 200/3]), ((2017, 2), [0, 100])] := by
    norm_num [payment_pivot, mpKeys, ptKeys, exDataC6, CleanRow.monthPeriod,
      ymLe, hbc, hne1, hne2, List.insertionSort, List.orderedInsert,
      List.dedup_cons_of_mem, List.dedup_cons_of_not_mem, List.filter_cons,
      Prod.mk.injEq]
  have hm : (((2017 : Int), (2 : Nat)), ([0, 100] : List ℚ)) ∈ payment_pivot exDataC6 := by
    rw [hpp]
    norm_num
  exact ⟨hm, payment_pivot_row_sum.1 exDataC6 (2017, 2) [0, 100] hm⟩

theorem filterMap_of_filter_isSome (f : CleanRow → Option ℚ) :
    ∀ l : List CleanRow,
      (l.filter (fun r => (f r).isSome)).filterMap f = l.filterMap f
  | [] => rfl
  | r :: t => by
    cases h : f r <;>
      simp [List.filter_cons, List.filterMap_cons, h,
        filterMap_of_filter_isSome f t]

theorem avg_order_value_eq (df : List CleanRow) :
    avg_order_value df = (if (df.filterMap CleanRow.value).isEmpty then none
      else some ((df.filterMap CleanRow.value).sum
        / ((df.filterMap CleanRow.value).length : ℚ))) := by
  simp [avg_order_value, colMean, List.filterMap_map, Function.comp_def]

theorem avg_satisfaction_eq (df : List CleanRow) :
    avg_satisfaction df = (if (df.filterMap CleanRow.score).isEmpty then none
      else some ((df.filterMap CleanRow.score).sum
        / ((df.filterMap CleanRow.score).length : ℚ))) := by
  simp [avg_satisfaction, colMean, List.filterMap_map, Function.comp_def]

/-- C7 (amended): the "Avg Order Value" metric exposed at the
presentation boundary is the null-skipping mean item value per line item
(row) of the filtered set — not the mean per distinct order — and, like
the other scalar metrics, it is computed over the filtered set with
null-skipping semantics: rows with a null value (resp. score) do not
affect the metrics, and whenever some non-null value exists the metric
equals the filtered total revenue divided by the number of rows with a
non-null value. -/
theorem scalar_metrics_null_skipping (sel : Selection) (base : List CleanRow) :
    avg_order_value (filtered_df sel base)
      = avg_order_value ((filtered_df sel base).filter
          (fun r => (r.value).isSome)) ∧
    total_revenue (filtered_df sel base)
      = total_revenue ((filtered_df sel base).filter
          (fun r => (r.value).isSome)) ∧
    avg_satisfaction (filtered_df sel base)
      = avg_satisfaction ((filtered_df sel base).filter
          (fun r => (r.score).isSome)) ∧
    ((filtered_df sel base).filterMap CleanRow.value ≠ [] →
      avg_order_value (filtered_df sel base)
        = some (total_revenue (filtered_df sel base)
            / (((filtered_df sel base).filterMap CleanRow.value).length : ℚ))) := by
  generalize filtered_df sel base = df
  have h1 : (df.filter (fun r => (r.value).isSome)).filterMap CleanRow.value
      = df.filterMap CleanRow.value := filterMap_of_filter_isSome _ df
  have h2 : (df.filter (fun r => (r.score).isSome)).filterMap CleanRow.score
      = df.filterMap CleanRow.score := filterMap_of_filter_isSome _ df
  refine ⟨?_, ?_, ?_, ?_⟩
  · rw [avg_order_value_eq, avg_order_value_eq, h1]
  · rw [total_revenue, total_revenue, sumValues, sumValues, h1]
  · rw [avg_satisfaction_eq, avg_satisfaction_eq, h2]
  · intro hne
    rw [avg_order_value_eq, if_neg (by simp [List.isEmpty_iff, hne])]
    rfl

/-- C7 witness: on a concrete filtered set with non-null values, the
metric equals total revenue over the non-null row count. -/
theorem scalar_metrics_null_skipping_witness :
    ((filtered_df ⟨none, none⟩ exDataC7).filterMap CleanRow.value ≠ []) ∧
    avg_order_value (filtered_df ⟨none, none⟩ exDataC7)
      = some (total_revenue (filtered_df ⟨none, none⟩ exDataC7)
          / (((filtered_df ⟨none, none⟩ exDataC7).filterMap
              CleanRow.value).length : ℚ)) := by
  have hne : (filtered_df ⟨none, none⟩ exDataC7).filterMap CleanRow.value ≠ [] := by
    have he : (filtered_df ⟨none, none⟩ exDataC7).filterMap CleanRow.value
        = [10, 30] := by
      norm_num [filtered_df, exDataC7, List.filterMap]
    rw [he]
    simp
  exact ⟨hne, (scalar_metrics_null_skipping ⟨none, none⟩ exDataC7).2.2.2 hne⟩

/-- C7 counterexample: on two line items of one order valued 10 and 30,
the exposed metric is the per-row mean 20, while the mean value per
distinct order is 40: the metric does not aggregate per distinct order
identifier. -/
theorem avg_order_value_not_per_order :
    avg_order_value exDataC7 = some 20 ∧
    mean_value_per_order exDataC7 = some 40 ∧
    some (20:ℚ) ≠ some 40 := by
  refine ⟨?_, ?_, by norm_num⟩
  · norm_num [avg_order_value, colMean, exDataC7, List.filterMap]
  · norm_num [mean_value_per_order, sumValues, exDataC7, List.filterMap,
      List.dedup_cons_of_mem, List.dedup_cons_of_not_mem, List.filter_cons]

theorem length_filterMap_eq (g : RawRow → Option CleanRow) :
    ∀ l : List RawRow,
      (l.filterMap g).length = (l.filter (fun a => (g a).isSome)).length
  | [] => rfl
  | a :: t => by
    cases h : g a <;>
      simp [List.filterMap_cons, List.filter_cons, h, length_filterMap_eq g t]

/-- C8: when all required columns are present, the cleaning pass always
succeeds (never fails on data content); a cleaned record exists exactly
for each raw record whose timestamp parses — its numeric fields carry
the numeric parser's output, `none` (null) for unparseable tokens, never
zero — rows are dropped exactly when the timestamp is unparseable, and
aggregates skip the nulls (dropping the null-valued rows leaves the
value sum unchanged). -/
theorem validate_and_prepare_cleaning (parseTs : String → Option Timestamp)
    (parseNum : String → Option ℚ) (f : RawFrame)
    (hcols : missingCols f = []) :
    validate_and_prepare parseTs parseNum f
      = .ok (prepare parseTs parseNum f) ∧
    (∀ cr : CleanRow, cr ∈ prepare parseTs parseNum f ↔
      ∃ raw ∈ f.rows, parseTs raw.order_purchase_timestamp = some cr.ts ∧
        cr.category = raw.product_category_name_english ∧
        cr.order_id = raw.order_id ∧
        cr.value = parseNum raw.total_item_value ∧
        cr.score = parseNum raw.review_score ∧
        cr.payment = raw.payment_type) ∧
    (prepare parseTs parseNum f).length
      = (f.rows.filter (fun raw =>
          (parseTs raw.order_purchase_timestamp).isSome)).length ∧
    sumValues (prepare parseTs parseNum f)
      = sumValues ((prepare parseTs parseNum f).filter
          (fun r => (r.value).isSome)) := by
  refine ⟨?_, ?_, ?_, ?_⟩
  · rw [validate_and_prepare, if_pos hcols]
  · intro cr
    constructor
    · intro hmem
      rcases List.mem_filterMap.mp hmem with ⟨raw, hraw, he⟩
      rw [cleanOfRaw] at he
      rcases Option.map_eq_some'.mp he with ⟨t, hpt, hg⟩
      subst hg
      exact ⟨raw, hraw, hpt, rfl, rfl, rfl, rfl, rfl⟩
    · rintro ⟨raw, hraw, hts, hcat, hoid, hval, hsc, hpay⟩
      apply List.mem_filterMap.mpr
      refine ⟨raw, hraw, ?_⟩
      rw [cleanOfRaw, hts, Option.map_some']
      cases cr
      simp_all
  · rw [prepare, length_filterMap_eq]
    refine congrArg List.length (List.filter_congr fun raw _ => ?_)
    rw [cleanOfRaw]
    simp
  · rw [sumValues, sumValues, filterMap_of_filter_isSome]

/-- C8 witness: on a concrete frame holding an unparseable timestamp row
and an unparseable numeric token, the column check passes and cleaning
succeeds. -/
theorem validate_and_prepare_cleaning_witness :
    missingCols exFrameC8 = [] ∧
    validate_and_prepare exParseTs exParseNum exFrameC8
      = .ok (prepare exParseTs exParseNum exFrameC8) ∧
    prepare exParseTs exParseNum exFrameC8
      = [⟨⟨2017, 1, 5⟩, some "toys", "o1", some 10, some 5, "credit_card"⟩,
         ⟨⟨2017, 2, 7⟩, some "books", "o3", none, some 3, "boleto"⟩] := by
  have h : missingCols exFrameC8 = [] := by decide
  have hp : prepare exParseTs exParseNum exFrameC8
      = [⟨⟨2017, 1, 5⟩, some "toys", "o1", some 10, some 5, "credit_card"⟩,
         ⟨⟨2017, 2, 7⟩, some "books", "o3", none, some 3, "boleto"⟩] := by
    decide
  exact ⟨h, (validate_and_prepare_cleaning exParseTs exParseNum exFrameC8 h).1, hp⟩

/-- C9: when required columns are missing, validation reports exactly
the missing columns and never yields a cleaned dataset (so no
aggregation can run; the embedding is pure — and in the source the check
precedes the `df.copy()`, so the caller's frame is untouched); when
exactly the payment-method column is absent, the error names exactly
that column. -/
theorem validate_missing_columns (parseTs : String → Option Timestamp)
    (parseNum : String → Option ℚ) (f : RawFrame)
    (hmiss : missingCols f ≠ []) :
    validate_and_prepare parseTs parseNum f = .error (missingCols f) ∧
    (∀ out, validate_and_prepare parseTs parseNum f ≠ .ok out) ∧
    ("payment_type" ∉ f.columns →
      (∀ c ∈ requiredCols, c ≠ "payment_type" → c ∈ f.columns) →
      missingCols f = ["payment_type"]) := by
  have herr : validate_and_prepare parseTs parseNum f
      = .error (missingCols f) := by
    rw [validate_and_prepare, if_neg hmiss]
  refine ⟨herr, ?_, ?_⟩
  · intro out hok
    rw [herr] at hok
    exact Except.noConfusion hok
  · intro hpay hother
    have h1 : "order_purchase_timestamp" ∈ f.columns :=
      hother _ (by simp [requiredCols]) (by decide)
    have h2 : "product_category_name_english" ∈ f.columns :=
      hother _ (by simp [requiredCols]) (by decide)
    have h3 : "order_id" ∈ f.columns :=
      hother _ (by simp [requiredCols]) (by decide)
    have h4 : "total_item_value" ∈ f.columns :=
      hother _ (by simp [requiredCols]) (by decide)
    have h5 : "review_score" ∈ f.columns :=
      hother _ (by simp [requiredCols]) (by decide)
    simp [missingCols, requiredCols, List.filter_cons, h1, h2, h3, h4, h5, hpay]

/-- C9 witness: a frame missing exactly the payment-method column fails
with an error naming exactly that column. -/
theorem validate_missing_columns_witness :
    missingCols exFrameC9 = ["payment_type"] ∧
    validate_and_prepare exParseTs exParseNum exFrameC9
      = .error (missingCols exFrameC9) := by
  have h : missingCols exFrameC9 = ["payment_type"] := by decide
  refine ⟨h, (validate_missing_columns exParseTs exParseNum exFrameC9 ?_).1⟩
  rw [h]
  simp

/-- C10: filtering with {year: "all", category: "all"} is the identity,
repeated application of the same selection is idempotent, and the result
is always a sublist (non-destructive projection) of the base dataset. -/
theorem filter_identity_idempotent :
    (∀ df : List CleanRow, filtered_df ⟨none, none⟩ df = df) ∧
    (∀ (sel : Selection) (df : List CleanRow),
      filtered_df sel (filtered_df sel df) = filtered_df sel df) ∧
    (∀ (sel : Selection) (df : List CleanRow),
      (filtered_df sel df).Sublist df) := by
  refine ⟨fun df => rfl, fun sel df => ?_, fun sel df => ?_⟩
  · rcases sel with ⟨oy, oc⟩
    rcases oy with _ | y <;> rcases oc with _ | c
    · rfl
    · simp only [filtered_df, List.filter_filter]
      exact List.filter_congr fun a _ => by
        cases h1 : decide (a.category = some c) <;> simp [h1]
    · simp only [filtered_df, List.filter_filter]
      exact List.filter_congr fun a _ => by
        cases h1 : decide (a.year = y) <;> simp [h1]
    · simp only [filtered_df, List.filter_filter]
      exact List.filter_congr fun a _ => by
        cases h1 : decide (a.category = some c) <;>
          cases h2 : decide (a.year = y) <;> simp [h1, h2]
  · rcases sel with ⟨oy, oc⟩
    rcases oy with _ | y <;> rcases oc with _ | c <;>
      simp only [filtered_df] <;>
      first
        | exact List.Sublist.refl _
        | exact List.filter_sublist _
        | exact (List.filter_sublist _).trans (List.filter_sublist _)

end Dashboard
